import Mathlib

/-!
Shallow embedding of the proxy framing protocol implemented by
`server.py` (`handle_client`, `send_error`) and `client.py`
(`recv_all`, `fetch_via_proxy`, `main`).

Conventions:
* a byte is a `Nat` (the value of one byte of a Python `bytes` object);
  a byte string is a `List Nat`;
* a Python `str` is a Lean `String`; UTF-8 encoding and (strict)
  decoding are modelled explicitly at the byte level;
* the bytes a peer will ever deliver on a socket are a `List Nat`
  (for the client) or a list of `recv` chunks `List (List Nat)`
  (for the server); the end of the list models the peer closing the
  connection, after which `recv` returns the empty byte string.
-/

namespace Proxy

/-- Decimal digit bytes `'0'..'9'`. -/
def isDigit (b : Nat) : Bool := decide (48 ≤ b ∧ b ≤ 57)

/-- The ASCII bytes stripped by Python `bytes.strip()`:
space, tab, newline, vertical tab, form feed, carriage return. -/
def isByteWs (b : Nat) : Bool := decide (b = 32 ∨ (9 ≤ b ∧ b ≤ 13))

/-- The ASCII characters treated as whitespace by Python `int(str)`
(Unicode whitespace restricted to code points below 128): the six of
`isByteWs` plus the separator controls `0x1c`–`0x1f`. -/
def isIntWs (b : Nat) : Bool :=
  decide (b = 32 ∨ (9 ≤ b ∧ b ≤ 13) ∨ (28 ≤ b ∧ b ≤ 31))

/-- Strip bytes satisfying `p` from both ends of a byte string. -/
def stripWith (p : Nat → Bool) (l : List Nat) : List Nat :=
  ((l.dropWhile p).reverse.dropWhile p).reverse

/-- Python `bytes.strip()` (used on the request line in `handle_client`). -/
def stripBytes (l : List Nat) : List Nat := stripWith isByteWs l

/-- Python `bytes.rstrip(b' ')` (used on the content-type field in
`fetch_via_proxy`): remove trailing space bytes only. -/
def rstripSpaces (l : List Nat) : List Nat :=
  (l.reverse.dropWhile (fun b => decide (b = 32))).reverse

/-- Python `data.split(b'\n', 1)[0]`: the bytes before the first
newline byte, or all of `l` if no newline occurs. -/
def takeFirstLine (l : List Nat) : List Nat :=
  l.takeWhile (fun b => decide (b ≠ 10))

/-- Most-significant-first ASCII decimal digits of `n` (empty for 0),
computed with explicit fuel so that it is structurally recursive;
`toDecimal` supplies fuel `n`, which is always sufficient. -/
def toDecimalAux : Nat → Nat → List Nat
  | 0, _ => []
  | fuel + 1, n => if n = 0 then [] else toDecimalAux fuel (n / 10) ++ [48 + n % 10]

/-- ASCII decimal representation of `n`, as Python `str(n)` for a
nonnegative `int` (so `0` is `"0"`). -/
def toDecimal (n : Nat) : List Nat := if n = 0 then [48] else toDecimalAux n n

/-- Python `f-string` formatting `f"{n:010d}"` for a nonnegative `int`,
as bytes: the decimal digits of `n`, left-padded with `'0'` to a
minimum width of 10.  Note that Python does not truncate: a value of
11 or more digits yields a header longer than 10 bytes. -/
def lengthHeader (n : Nat) : List Nat :=
  List.replicate (10 - (toDecimal n).length) 48 ++ toDecimal n

/-- Value of a most-significant-first list of ASCII digit bytes,
accumulated onto `acc`. -/
def dval (l : List Nat) (acc : Nat) : Nat :=
  l.foldl (fun a b => a * 10 + (b - 48)) acc

/-- Digit-run parser of Python `int(str)` after the first digit:
consumes decimal digits, allowing a single `'_'` (byte 95) between two
digits; rejects trailing or doubled underscores and any other byte. -/
def parseDigitsGo : Nat → List Nat → Option Nat
  | acc, [] => some acc
  | acc, b :: rest =>
    if isDigit b then parseDigitsGo (acc * 10 + (b - 48)) rest
    else if b = 95 then
      match rest with
      | [] => none
      | d :: rest2 =>
        if isDigit d then parseDigitsGo (acc * 10 + (d - 48)) rest2 else none
    else none

/-- Unsigned digit part of Python `int(str)`: at least one leading
digit, then digits with optional single interior underscores. -/
def parseDigits : List Nat → Option Nat
  | [] => none
  | b :: rest => if isDigit b then parseDigitsGo (b - 48) rest else none

/-- Sign handling of Python `int(str)` on the whitespace-stripped
text: an optional leading `'+'` (43) or `'-'` (45), then the digit
run; the empty string is rejected. -/
def pythonIntCore : List Nat → Option Int
  | [] => none
  | b :: rest =>
    if b = 43 then (parseDigits rest).map (fun n => (n : Int))
    else if b = 45 then (parseDigits rest).map (fun n => -(n : Int))
    else (parseDigits (b :: rest)).map (fun n => (n : Int))

/-- Python `int(bytes.decode('ascii'))` as used by the client on the
10-byte length header: fails if any byte is non-ASCII, else strips
whitespace, accepts an optional sign, and parses a decimal digit run
(with Python's underscore rule).  Returns `none` where the Python code
raises (caught in `fetch_via_proxy` as "Invalid length header"). -/
def pythonInt (bs : List Nat) : Option Int :=
  if bs.all (fun b => decide (b < 128)) then pythonIntCore (stripWith isIntWs bs)
  else none

/-- UTF-8 encoding of one Unicode scalar value, as Python
`str.encode('utf-8')` produces for one character. -/
def encodeChar (c : Char) : List Nat :=
  let n := c.toNat
  if n < 128 then [n]
  else if n < 2048 then [192 + n / 64, 128 + n % 64]
  else if n < 65536 then [224 + n / 4096, 128 + n / 64 % 64, 128 + n % 64]
  else [240 + n / 262144, 128 + n / 4096 % 64, 128 + n / 64 % 64, 128 + n % 64]

/-- Python `str.encode('utf-8')` as a byte string. -/
def utf8 (s : String) : List Nat := s.data.flatMap encodeChar

/-- Continuation byte of a UTF-8 sequence: `0x80`–`0xbf`. -/
def isCont (b : Nat) : Bool := decide (128 ≤ b ∧ b ≤ 191)

/-- Decode one UTF-8 sequence whose lead byte is `b` and whose
remaining input is `rest`: the decoded character and the unconsumed
input, or `none` on a malformed sequence.  As in Python's strict
decoder, stray continuation bytes, overlong encodings, surrogate code
points and code points beyond `0x10ffff` are rejected. -/
def decodeOne (b : Nat) (rest : List Nat) : Option (Char × List Nat) :=
  if b < 128 then some (Char.ofNat b, rest)
  else if b < 194 then none
  else if b < 224 then
    match rest with
    | b1 :: r =>
      if isCont b1 then some (Char.ofNat ((b - 192) * 64 + (b1 - 128)), r) else none
    | [] => none
  else if b < 240 then
    match rest with
    | b1 :: b2 :: r =>
      let cp := (b - 224) * 4096 + (b1 - 128) * 64 + (b2 - 128)
      if isCont b1 && isCont b2 && decide (2048 ≤ cp) &&
          !(decide (55296 ≤ cp) && decide (cp ≤ 57343)) then
        some (Char.ofNat cp, r)
      else none
    | _ => none
  else if b < 245 then
    match rest with
    | b1 :: b2 :: b3 :: r =>
      let cp := (b - 240) * 262144 + (b1 - 128) * 4096 + (b2 - 128) * 64 + (b3 - 128)
      if isCont b1 && isCont b2 && isCont b3 && decide (65536 ≤ cp) &&
          decide (cp ≤ 1114111) then
        some (Char.ofNat cp, r)
      else none
    | _ => none
  else none

/-- Iterate `decodeOne` over the whole input.  The `fuel` argument
only makes the recursion structural: every step consumes at least one
input byte, so fuel equal to the input length (as supplied by
`decodeUtf8`) is never exhausted. -/
def decodeUtf8Aux : Nat → List Nat → Option (List Char)
  | _, [] => some []
  | 0, _ :: _ => none
  | fuel + 1, b :: rest =>
    match decodeOne b rest with
    | none => none
    | some cr => (decodeUtf8Aux fuel cr.2).map (fun cs => cr.1 :: cs)

/-- Strict UTF-8 decoding to a character list, as Python
`bytes.decode('utf-8')`; `none` models a raised `UnicodeDecodeError`. -/
def decodeUtf8 (l : List Nat) : Option (List Char) := decodeUtf8Aux l.length l

/-- Python `bytes.decode('utf-8')` to a string (`none` on failure). -/
def utf8DecodeStr (l : List Nat) : Option String :=
  (decodeUtf8 l).map (fun cs => String.mk cs)

/-- One response frame as assembled by the server: the length header,
the content-type header, and the raw body, written on the wire in that
order (`conn.sendall(length_header + ctype_enc)` followed by the body
send loop). -/
structure Frame where
  lenHeader : List Nat
  ctypeHeader : List Nat
  body : List Nat
deriving DecidableEq

/-- Content-type field encoding of `handle_client`: the UTF-8 bytes of
the content-type, truncated to 100 bytes if longer
(`ctype_enc[:CTYPE_HEADER]`), then right-padded with spaces to exactly
100 bytes (`ljust(CTYPE_HEADER, b' ')`).  The argument is the UTF-8
encoding of the content-type string. -/
def ctypePad (c : List Nat) : List Nat :=
  c.take 100 ++ List.replicate (100 - (c.take 100).length) 32

/-- Success frame built by `handle_client` lines 77–94 from a fetched
body and the UTF-8 bytes of its content-type string. -/
def successFrame (body ctype : List Nat) : Frame :=
  ⟨lengthHeader body.length, ctypePad ctype, body⟩

/-- Error frame built by `send_error`: the body is the UTF-8 message,
the content-type is the literal `text/plain; charset=utf-8` padded to
100 bytes (it is 25 bytes long, so `ljust` and `ctypePad` agree). -/
def errorFrame (msg : String) : Frame :=
  ⟨lengthHeader (utf8 msg).length, ctypePad (utf8 "text/plain; charset=utf-8"), utf8 msg⟩

/-- Bytes of a frame as they appear on the wire. -/
def frameBytes (f : Frame) : List Nat := f.lenHeader ++ f.ctypeHeader ++ f.body

/-- Outcome of the external fetch collaborator `fetch_url`, as
classified by the `except` clauses of `handle_client`: success carries
the body bytes and the UTF-8 bytes of the content-type string;
the three failure classes carry the data used to format the message. -/
inductive FetchResult where
  | success : List Nat → List Nat → FetchResult
  | httpError : Nat → String → FetchResult
  | urlError : String → FetchResult
  | failure : String → FetchResult

/-- What `handle_client` writes on one connection, with the path that
produced it: nothing at all (early close), a protocol-level error
frame produced before any fetch, or a fetch-dispatched outcome
(error frame or success frame) recording the URL handed to the fetch
collaborator. -/
inductive Written where
  | nothing : Written
  | protoError : Frame → Written
  | fetchError : String → Frame → Written
  | success : String → Frame → Written
deriving DecidableEq

/-- Request-read loop of `handle_client` lines 36–46.  `chunks` are
the successive nonempty results of `conn.recv`; exhaustion of the list
(or an empty chunk) models the peer having closed the connection.
Returns `none` when the connection closed before a newline was seen
(the `return` at line 42), else the accumulated buffer at loop exit:
either a newline was observed, or the buffer exceeded 8192 bytes and
the loop did `break`. -/
def readLoop : List (List Nat) → List Nat → Option (List Nat)
  | chunks, data =>
    if (10 : Nat) ∈ data then some data
    else
      match chunks with
      | [] => none
      | c :: rest =>
        if c = [] then none
        else
          if 8192 < (data ++ c).length then some (data ++ c)
          else readLoop rest (data ++ c)

/-- Request read of `handle_client` started on the empty buffer. -/
def readRequest (chunks : List (List Nat)) : Option (List Nat) :=
  readLoop chunks []

/-- Processing of an accumulated request buffer by `handle_client`
(lines 47–94): split at the first newline, strip surrounding
whitespace, decode UTF-8, reject an empty URL, then dispatch to the
fetch collaborator and frame its outcome. -/
def handleLine (fetch : String → FetchResult) (data : List Nat) : Written :=
  match utf8DecodeStr (stripBytes (takeFirstLine data)) with
  | none => .protoError (errorFrame "Invalid URL encoding; expected UTF-8.")
  | some url =>
    if url = "" then .protoError (errorFrame "No URL received.")
    else
      match fetch url with
      | .success body ctype => .success url (successFrame body ctype)
      | .httpError code reason =>
        .fetchError url (errorFrame ("HTTP error " ++ toString code ++ ": " ++ reason))
      | .urlError reason => .fetchError url (errorFrame ("URL error: " ++ reason))
      | .failure m => .fetchError url (errorFrame ("Fetch failed: " ++ m))

/-- The per-connection handler `handle_client`, as a function from the
fetch collaborator and the peer's chunk stream to what is written
back: read until newline, close or cap, then process the buffer. -/
def handleClient (fetch : String → FetchResult) (chunks : List (List Nat)) : Written :=
  match readRequest chunks with
  | none => .nothing
  | some data => handleLine fetch data

/-- The frame a `Written` outcome put on the wire, if any. -/
def writtenFrame : Written → Option Frame
  | .nothing => none
  | .protoError f => some f
  | .fetchError _ f => some f
  | .success _ f => some f

/-- The error frame a `Written` outcome put on the wire, if any
(both the pre-fetch and the post-fetch error paths go through
`send_error`). -/
def writtenErrorFrame : Written → Option Frame
  | .nothing => none
  | .protoError f => some f
  | .fetchError _ f => some f
  | .success _ _ => none

/-- Client `recv_all(sock, n)` on a stream whose remaining bytes are
`s`: loops while fewer than `n` bytes are collected and the peer has
not closed, so it returns the first `n` bytes of `s` (all of `s` if
shorter; nothing if `n ≤ 0`), together with the rest of the stream. -/
def recvAll (s : List Nat) (n : Int) : List Nat × List Nat :=
  (s.take n.toNat, s.drop n.toNat)

/-- Result of a successful `fetch_via_proxy`: the parsed body length
(a Python `int`, possibly negative), the space-stripped content-type
field bytes, and the body bytes. -/
structure DecodeResult where
  bodyLen : Int
  ctype : List Nat
  body : List Nat
deriving DecidableEq

/-- The short-read error message of `fetch_via_proxy` line 87,
`f"Expected {body_len} bytes, got {len(body)} bytes"`. -/
def shortReadMsg (expected : Int) (got : Nat) : String :=
  "Expected " ++ toString expected ++ " bytes, got " ++ toString got ++ " bytes"

/-- Client decode path `fetch_via_proxy` lines 69–89, applied to the
byte stream the server side delivers: read 10 bytes (error if fewer),
parse them as a Python `int` after ASCII decoding (error if that
raises), read 100 bytes (error if fewer), strip trailing spaces, read
the declared number of body bytes and error on a short read.
`Except.error` carries the `RuntimeError` message. -/
def fetchDecode (stream : List Nat) : Except String DecodeResult :=
  let r10 := recvAll stream 10
  if r10.1.length < 10 then .error "Incomplete length header received"
  else
    match pythonInt r10.1 with
    | none => .error "Invalid length header"
    | some bodyLen =>
      let r100 := recvAll r10.2 100
      if r100.1.length < 100 then .error "Incomplete content-type header received"
      else
        let rb := recvAll r100.2 bodyLen
        if (rb.1.length : Int) < bodyLen then
          .error (shortReadMsg bodyLen rb.1.length)
        else .ok ⟨bodyLen, rstripSpaces r100.1, rb.1⟩

/-- Outcome of the client `main`: either the body was saved to a file,
or the process printed the error and exited with status 2. -/
inductive ClientOutcome where
  | saved : List Nat → List Nat → ClientOutcome
  | exitError : Nat → String → ClientOutcome
deriving DecidableEq

/-- Client `main` lines 99–108: any exception from `fetch_via_proxy`
leads to `sys.exit(2)` with the message printed, before the output
file is opened; otherwise the body is written to a file. -/
def clientMain (stream : List Nat) : ClientOutcome :=
  match fetchDecode stream with
  | .error m => .exitError 2 m
  | .ok r => .saved r.body r.ctype

/-- Fetch collaborator that reports a DNS resolution failure, as
`urllib` does for an unresolvable host: a `URLError` whose reason is
`Name or service not known`. -/
def fetchNSNK : String → FetchResult := fun _ => .urlError "Name or service not known"

/-- Fetch collaborator that succeeds with an empty body and an empty
content-type, used to observe whether a request is dispatched. -/
def fetchEmptyOk : String → FetchResult := fun _ => .success [] []

/-! Arithmetic facts about the decimal formatter and the `int` parser. -/

theorem dval_nil (acc : Nat) : dval [] acc = acc := rfl

theorem dval_cons (b : Nat) (l : List Nat) (acc : Nat) :
    dval (b :: l) acc = dval l (acc * 10 + (b - 48)) := rfl

theorem dval_append (l1 l2 : List Nat) (acc : Nat) :
    dval (l1 ++ l2) acc = dval l2 (dval l1 acc) := by
  simp [dval, List.foldl_append]

theorem dval_singleton (b acc : Nat) : dval [b] acc = acc * 10 + (b - 48) := rfl

theorem dval_replicate_zeros (k : Nat) : dval (List.replicate k 48) 0 = 0 := by
  induction k with
  | zero => rfl
  | succ k ih => simpa [List.replicate_succ, dval_cons] using ih

theorem toDecimalAux_dval (fuel : Nat) :
    ∀ n acc, n ≤ fuel →
      dval (toDecimalAux fuel n) acc = acc * 10 ^ (toDecimalAux fuel n).length + n := by
  induction fuel with
  | zero =>
    intro n acc h
    have hn : n = 0 := Nat.le_zero.mp h
    simp [toDecimalAux, dval, hn]
  | succ fuel ih =>
    intro n acc h
    by_cases h0 : n = 0
    · simp [toDecimalAux, dval, h0]
    · have hdiv : n / 10 ≤ fuel := by
        have := Nat.div_lt_self (Nat.pos_of_ne_zero h0) (by norm_num : 1 < 10)
        omega
      simp only [toDecimalAux, if_neg h0]
      rw [dval_append, dval_singleton, ih _ _ hdiv]
      have hmod : 48 + n % 10 - 48 = n % 10 := by omega
      rw [hmod, List.length_append]
      have hdm : 10 * (n / 10) + n % 10 = n := Nat.div_add_mod n 10
      calc (acc * 10 ^ (toDecimalAux fuel (n / 10)).length + n / 10) * 10 + n % 10
          = acc * (10 ^ (toDecimalAux fuel (n / 10)).length * 10) +
              (10 * (n / 10) + n % 10) := by ring
        _ = acc * 10 ^ ((toDecimalAux fuel (n / 10)).length + [48 + n % 10].length) + n := by
              rw [hdm]; norm_num [pow_succ]

theorem toDecimalAux_digits (fuel : Nat) :
    ∀ n, n ≤ fuel → ∀ b ∈ toDecimalAux fuel n, 48 ≤ b ∧ b ≤ 57 := by
  induction fuel with
  | zero =>
    intro n h b hb
    have hn : n = 0 := Nat.le_zero.mp h
    simp [toDecimalAux, hn] at hb
  | succ fuel ih =>
    intro n h b hb
    by_cases h0 : n = 0
    · simp [toDecimalAux, h0] at hb
    · have hdiv : n / 10 ≤ fuel := by
        have := Nat.div_lt_self (Nat.pos_of_ne_zero h0) (by norm_num : 1 < 10)
        omega
      simp only [toDecimalAux, if_neg h0, List.mem_append, List.mem_singleton] at hb
      rcases hb with hb | hb
      · exact ih _ hdiv b hb
      · have := Nat.mod_lt n (by norm_num : 0 < 10)
        omega

theorem toDecimalAux_len_le (fuel : Nat) :
    ∀ n k, n ≤ fuel → n < 10 ^ k → (toDecimalAux fuel n).length ≤ k := by
  induction fuel with
  | zero =>
    intro n k h _
    have hn : n = 0 := Nat.le_zero.mp h
    simp [toDecimalAux, hn]
  | succ fuel ih =>
    intro n k h hk
    by_cases h0 : n = 0
    · simp [toDecimalAux, h0]
    · have hdiv : n / 10 ≤ fuel := by
        have := Nat.div_lt_self (Nat.pos_of_ne_zero h0) (by norm_num : 1 < 10)
        omega
      cases k with
      | zero => simp at hk; omega
      | succ j =>
        have hlt : n / 10 < 10 ^ j := by
          rw [Nat.div_lt_iff_lt_mul (by norm_num : 0 < 10)]
          calc n < 10 ^ (j + 1) := hk
            _ = 10 ^ j * 10 := by rw [pow_succ]
        simp only [toDecimalAux, if_neg h0, List.length_append, List.length_singleton]
        have := ih (n / 10) j hdiv hlt
        omega

theorem toDecimalAux_len_gt (fuel : Nat) :
    ∀ n k, n ≤ fuel → 10 ^ k ≤ n → k < (toDecimalAux fuel n).length := by
  induction fuel with
  | zero =>
    intro n k h hk
    have hn : n = 0 := Nat.le_zero.mp h
    have : 0 < 10 ^ k := Nat.pos_pow_of_pos k (by norm_num)
    omega
  | succ fuel ih =>
    intro n k h hk
    have h0 : n ≠ 0 := by
      have : 0 < 10 ^ k := Nat.pos_pow_of_pos k (by norm_num)
      omega
    have hdiv : n / 10 ≤ fuel := by
      have := Nat.div_lt_self (Nat.pos_of_ne_zero h0) (by norm_num : 1 < 10)
      omega
    simp only [toDecimalAux, if_neg h0, List.length_append, List.length_singleton]
    cases k with
    | zero => omega
    | succ j =>
      have hle : 10 ^ j ≤ n / 10 := by
        rw [Nat.le_div_iff_mul_le (by norm_num : 0 < 10)]
        calc 10 ^ j * 10 = 10 ^ (j + 1) := by rw [pow_succ]
          _ ≤ n := hk
      have := ih (n / 10) j hdiv hle
      omega

theorem toDecimal_dval (n : Nat) : dval (toDecimal n) 0 = n := by
  by_cases h0 : n = 0
  · simp [toDecimal, h0, dval]
  · simp only [toDecimal, if_neg h0]
    rw [toDecimalAux_dval n n 0 (le_refl n)]
    simp

theorem toDecimal_digits (n : Nat) : ∀ b ∈ toDecimal n, 48 ≤ b ∧ b ≤ 57 := by
  by_cases h0 : n = 0
  · simp [toDecimal, h0]
  · simp only [toDecimal, if_neg h0]
    exact toDecimalAux_digits n n (le_refl n)

theorem toDecimal_ne_nil (n : Nat) : toDecimal n ≠ [] := by
  by_cases h0 : n = 0
  · simp [toDecimal, h0]
  · simp only [toDecimal, if_neg h0]
    intro h
    have := toDecimalAux_len_gt n n 0 (le_refl n) (by omega)
    simp [h] at this

theorem toDecimal_len_le (n k : Nat) (h0 : 0 < k) (h : n < 10 ^ k) :
    (toDecimal n).length ≤ k := by
  by_cases hn : n = 0
  · simp [toDecimal, hn]; omega
  · simp only [toDecimal, if_neg hn]
    exact toDecimalAux_len_le n n k (le_refl n) h

theorem lengthHeader_length_eq (n : Nat) (h : n < 10 ^ 10) :
    (lengthHeader n).length = 10 := by
  have hle : (toDecimal n).length ≤ 10 := toDecimal_len_le n 10 (by norm_num) h
  simp [lengthHeader, List.length_append, List.length_replicate]
  omega

theorem lengthHeader_digits (n : Nat) : ∀ b ∈ lengthHeader n, 48 ≤ b ∧ b ≤ 57 := by
  intro b hb
  simp only [lengthHeader, List.mem_append, List.mem_replicate] at hb
  rcases hb with ⟨_, hb⟩ | hb
  · omega
  · exact toDecimal_digits n b hb

theorem dval_lengthHeader (n : Nat) : dval (lengthHeader n) 0 = n := by
  rw [lengthHeader, dval_append, dval_replicate_zeros, toDecimal_dval]

theorem parseDigitsGo_all_digits :
    ∀ (l : List Nat) (acc : Nat), (∀ b ∈ l, isDigit b = true) →
      parseDigitsGo acc l = some (dval l acc) := by
  intro l
  induction l with
  | nil => intro acc _; rfl
  | cons b rest ih =>
    intro acc h
    have hbd : isDigit b = true := h b (List.mem_cons_self b rest)
    rw [parseDigitsGo.eq_def]
    simp only [hbd, if_true, dval_cons]
    exact ih _ (fun x hx => h x (List.mem_cons_of_mem b hx))

theorem parseDigits_all_digits (l : List Nat) (hne : l ≠ [])
    (h : ∀ b ∈ l, isDigit b = true) : parseDigits l = some (dval l 0) := by
  cases l with
  | nil => exact absurd rfl hne
  | cons b rest =>
    have hbd : isDigit b = true := h b (List.mem_cons_self b rest)
    simp only [parseDigits, if_pos hbd]
    rw [parseDigitsGo_all_digits rest _ (fun x hx => h x (List.mem_cons_of_mem b hx))]
    rw [dval_cons]
    norm_num

/-! Facts about whitespace stripping and the padded headers. -/

theorem dropWhile_eq_self_of_forall {p : Nat → Bool} {l : List Nat}
    (h : ∀ b ∈ l, p b = false) : l.dropWhile p = l := by
  cases l with
  | nil => rfl
  | cons a t =>
    rw [List.dropWhile_cons, h a (List.mem_cons_self a t)]
    simp

theorem stripWith_eq_self {p : Nat → Bool} {l : List Nat}
    (h : ∀ b ∈ l, p b = false) : stripWith p l = l := by
  have h1 : l.dropWhile p = l := dropWhile_eq_self_of_forall h
  have h2 : l.reverse.dropWhile p = l.reverse :=
    dropWhile_eq_self_of_forall (fun b hb => h b (List.mem_reverse.mp hb))
  rw [stripWith, h1, h2, List.reverse_reverse]

theorem dropWhile_eq_nil_of_forall {p : Nat → Bool} {l : List Nat}
    (h : ∀ b ∈ l, p b = true) : l.dropWhile p = [] := by
  induction l with
  | nil => rfl
  | cons a t ih =>
    rw [List.dropWhile_cons, h a (List.mem_cons_self a t)]
    simp only [if_true]
    exact ih (fun b hb => h b (List.mem_cons_of_mem a hb))

theorem stripWith_eq_nil {p : Nat → Bool} {l : List Nat}
    (h : ∀ b ∈ l, p b = true) : stripWith p l = [] := by
  rw [stripWith, dropWhile_eq_nil_of_forall h]
  rfl

theorem dropWhile_replicate_append {p : Nat → Bool} {a : Nat} (hp : p a = true)
    (k : Nat) (l : List Nat) :
    (List.replicate k a ++ l).dropWhile p = l.dropWhile p := by
  induction k with
  | zero => rfl
  | succ k ih => rw [List.replicate_succ, List.cons_append, List.dropWhile_cons, hp]; simpa

theorem rstripSpaces_append_replicate (l : List Nat) (k : Nat) :
    rstripSpaces (l ++ List.replicate k 32) = rstripSpaces l := by
  rw [rstripSpaces, rstripSpaces, List.reverse_append, List.reverse_replicate,
    dropWhile_replicate_append (by decide) k l.reverse]

theorem ctypePad_length (c : List Nat) : (ctypePad c).length = 100 := by
  have h : (c.take 100).length ≤ 100 := by
    rw [List.length_take]; omega
  rw [ctypePad, List.length_append, List.length_replicate]
  omega

theorem ctypePad_of_short {c : List Nat} (h : c.length ≤ 100) :
    ctypePad c = c ++ List.replicate (100 - c.length) 32 := by
  rw [ctypePad, List.take_of_length_le h]

theorem ctypePad_of_long {c : List Nat} (h : 100 < c.length) :
    ctypePad c = c.take 100 := by
  have ht : (c.take 100).length = 100 := by
    rw [List.length_take]; omega
  rw [ctypePad, ht]
  simp

theorem pythonInt_lengthHeader (n : Nat) :
    pythonInt (lengthHeader n) = some (n : Int) := by
  have hd := lengthHeader_digits n
  have hall : (lengthHeader n).all (fun b => decide (b < 128)) = true := by
    rw [List.all_eq_true]
    intro b hb
    have := hd b hb
    simp
    omega
  have hstrip : stripWith isIntWs (lengthHeader n) = lengthHeader n := by
    refine stripWith_eq_self (fun b hb => ?_)
    have := hd b hb
    simp [isIntWs]
    omega
  have hne : lengthHeader n ≠ [] := by
    intro h
    have := toDecimal_ne_nil n
    rw [lengthHeader] at h
    rcases List.append_eq_nil.mp h with ⟨_, h2⟩
    exact this h2
  rw [pythonInt, if_pos hall, hstrip]
  cases hL : lengthHeader n with
  | nil => exact absurd hL hne
  | cons b rest =>
    have hb : 48 ≤ b ∧ b ≤ 57 := by
      have : b ∈ lengthHeader n := by rw [hL]; exact List.mem_cons_self b rest
      exact hd b this
    have h43 : ¬ b = 43 := by omega
    have h45 : ¬ b = 45 := by omega
    rw [pythonIntCore, if_neg h43, if_neg h45]
    have hdig : ∀ x ∈ b :: rest, isDigit x = true := by
      intro x hx
      have : x ∈ lengthHeader n := by rw [hL]; exact hx
      have := hd x this
      simp [isDigit]
      omega
    rw [parseDigits_all_digits (b :: rest) (by simp) hdig]
    have : dval (b :: rest) 0 = n := by
      rw [← hL]; exact dval_lengthHeader n
    rw [this]
    rfl

/-! Facts about UTF-8 decoding of ASCII data and the request loop. -/

theorem decodeOne_ascii {b : Nat} (rest : List Nat) (hb : b < 128) :
    decodeOne b rest = some (Char.ofNat b, rest) := by
  rw [decodeOne.eq_def, if_pos hb]

theorem decodeUtf8Aux_ascii :
    ∀ (fuel : Nat) (l : List Nat), l.length ≤ fuel → (∀ b ∈ l, b < 128) →
      decodeUtf8Aux fuel l = some (l.map Char.ofNat) := by
  intro fuel
  induction fuel with
  | zero =>
    intro l hl _
    have : l = [] := List.eq_nil_of_length_eq_zero (Nat.le_zero.mp hl)
    rw [this]
    rfl
  | succ fuel ih =>
    intro l hl h
    cases l with
    | nil => rfl
    | cons b rest =>
      have hb : b < 128 := h b (List.mem_cons_self b rest)
      have hrest : decodeUtf8Aux fuel rest = some (rest.map Char.ofNat) :=
        ih rest (by simp at hl; omega) (fun x hx => h x (List.mem_cons_of_mem b hx))
      rw [decodeUtf8Aux, decodeOne_ascii rest hb]
      simp [hrest]

theorem decodeUtf8_ascii (l : List Nat) (h : ∀ b ∈ l, b < 128) :
    decodeUtf8 l = some (l.map Char.ofNat) :=
  decodeUtf8Aux_ascii l.length l (le_refl _) h

theorem takeWhile_replicate_of_true {p : Nat → Bool} {a : Nat} (hp : p a = true) :
    ∀ n, (List.replicate n a).takeWhile p = List.replicate n a := by
  intro n
  induction n with
  | zero => rfl
  | succ n ih =>
    rw [List.replicate_succ, List.takeWhile_cons, hp]
    simp [ih]

theorem readLoop_found {chunks : List (List Nat)} {data : List Nat}
    (h : (10 : Nat) ∈ data) : readLoop chunks data = some data := by
  rw [readLoop.eq_def]
  simp [h]

theorem readLoop_nil {data : List Nat} (h : (10 : Nat) ∉ data) :
    readLoop [] data = none := by
  rw [readLoop.eq_def]
  simp [h]

theorem readLoop_step {c : List Nat} {rest : List (List Nat)} {data : List Nat}
    (h : (10 : Nat) ∉ data) (hc : c ≠ []) (hlen : (data ++ c).length ≤ 8192) :
    readLoop (c :: rest) data = readLoop rest (data ++ c) := by
  have hlen2 : ¬ 8192 < data.length + c.length := by
    rw [List.length_append] at hlen; omega
  rw [readLoop.eq_def]
  simp [h, hc, hlen2]

theorem readLoop_break {c : List Nat} {rest : List (List Nat)} {data : List Nat}
    (h : (10 : Nat) ∉ data) (hc : c ≠ []) (hlen : 8192 < (data ++ c).length) :
    readLoop (c :: rest) data = some (data ++ c) := by
  have hlen2 : 8192 < data.length + c.length := by
    rw [List.length_append] at hlen; omega
  rw [readLoop.eq_def]
  simp [h, hc, hlen2]

theorem readLoop_none_of_closed :
    ∀ (chunks : List (List Nat)) (data : List Nat), (10 : Nat) ∉ data →
      (∀ c ∈ chunks, (10 : Nat) ∉ c) →
      data.length + chunks.flatten.length ≤ 8192 →
      readLoop chunks data = none := by
  intro chunks
  induction chunks with
  | nil => intro data h1 _ _; exact readLoop_nil h1
  | cons c rest ih =>
    intro data h1 h2 h3
    by_cases hc : c = []
    · rw [readLoop.eq_def]; simp [h1, hc]
    · have hjoin : (c :: rest).flatten = c ++ rest.flatten := by simp
      rw [hjoin, List.length_append] at h3
      have hlen : (data ++ c).length ≤ 8192 := by
        rw [List.length_append]; omega
      rw [readLoop_step h1 hc hlen]
      refine ih (data ++ c) ?_ (fun x hx => h2 x (List.mem_cons_of_mem c hx)) ?_
      · intro hmem
        rcases List.mem_append.mp hmem with hm | hm
        · exact h1 hm
        · exact h2 c (List.mem_cons_self c rest) hm
      · rw [List.length_append]; omega

theorem readLoop_some_length :
    ∀ (chunks : List (List Nat)) (data : List Nat) (d : List Nat),
      (∀ c ∈ chunks, c.length ≤ 4096) → data.length ≤ 8192 →
      readLoop chunks data = some d → d.length ≤ 12288 := by
  intro chunks
  induction chunks with
  | nil =>
    intro data d _ hlen h
    by_cases h10 : (10 : Nat) ∈ data
    · rw [readLoop_found h10] at h
      cases h
      omega
    · rw [readLoop_nil h10] at h
      cases h
  | cons c rest ih =>
    intro data d hc hlen h
    by_cases h10 : (10 : Nat) ∈ data
    · rw [readLoop_found h10] at h
      cases h
      omega
    · by_cases hce : c = []
      · rw [readLoop.eq_def] at h; simp [h10, hce] at h
      · have hclen : c.length ≤ 4096 := hc c (List.mem_cons_self c rest)
        by_cases hbig : 8192 < (data ++ c).length
        · rw [readLoop_break h10 hce hbig] at h
          cases h
          rw [List.length_append]
          omega
        · rw [readLoop_step h10 hce (Nat.not_lt.mp hbig)] at h
          exact ih (data ++ c) d (fun x hx => hc x (List.mem_cons_of_mem c hx))
            (Nat.not_lt.mp hbig) h

example : toDecimal 0 = [48] := by decide
example : toDecimal 36 = [51, 54] := by decide
example : lengthHeader 36 = [48, 48, 48, 48, 48, 48, 48, 48, 51, 54] := by decide
example : pythonInt (lengthHeader 36) = some 36 := by decide
example : pythonInt [45, 48, 48, 52, 50] = some (-42) := by decide
example : pythonInt [32, 32, 49, 50, 32] = some 12 := by decide
example : pythonInt [49, 95, 50] = some 12 := by decide
example : pythonInt [49, 95, 95, 50] = none := by decide
example : pythonInt [49, 95] = none := by decide
example : pythonInt [] = none := by decide
example : pythonInt [200, 49] = none := by decide

/-! Behaviour of the client decode path on a well-aligned stream. -/

theorem fetchDecode_split (lh ct rest : List Nat) (v : Int)
    (hlh : lh.length = 10) (hct : ct.length = 100) (hp : pythonInt lh = some v) :
    fetchDecode (lh ++ (ct ++ rest)) =
      if ((rest.take v.toNat).length : Int) < v then
        .error (shortReadMsg v (rest.take v.toNat).length)
      else .ok ⟨v, rstripSpaces ct, rest.take v.toNat⟩ := by
  have h10 : ((10 : Int)).toNat = 10 := rfl
  have h100 : ((100 : Int)).toNat = 100 := rfl
  rw [fetchDecode]
  simp only [recvAll, h10, h100]
  rw [List.take_left' hlh, List.drop_left' hlh, List.take_left' hct, List.drop_left' hct]
  rw [hlh, hct, hp]
  simp

/-- Claim C1: for every body `B` with fewer than `10 ^ 10` bytes and
every content-type `c` (given by its UTF-8 bytes), framing `B` on the
server and decoding the frame on the client yields exactly `B` as the
body and reports `B.length` as the parsed length. -/
theorem frame_roundtrip (B c : List Nat) (h : B.length < 10 ^ 10) :
    fetchDecode (frameBytes (successFrame B c)) =
      .ok ⟨(B.length : Int), rstripSpaces (ctypePad c), B⟩ := by
  have hstream : frameBytes (successFrame B c) =
      lengthHeader B.length ++ (ctypePad c ++ B) := by
    rw [frameBytes]
    simp [successFrame, List.append_assoc]
  rw [hstream, fetchDecode_split _ _ _ (B.length : Int) (lengthHeader_length_eq _ h)
    (ctypePad_length c) (pythonInt_lengthHeader _)]
  have htoNat : ((B.length : Int)).toNat = B.length := rfl
  rw [htoNat, List.take_length]
  simp

/-- Witness for C1 at a concrete body and content-type. -/
theorem frame_roundtrip_witness :
    fetchDecode (frameBytes (successFrame [104, 105] [116])) =
      .ok ⟨((2 : Nat) : Int), rstripSpaces (ctypePad [116]), [104, 105]⟩ :=
  frame_roundtrip [104, 105] [116] (by decide)

/-- Counterexample to claim C3 as stated: for the two-byte
content-type `utf8 "a "` (which ends in a space and has length at
most 100), the client's space-trimmed decoding of the written header
is `utf8 "a"`, not the original string. -/
theorem ctype_roundtrip_cex :
    rstripSpaces (ctypePad (utf8 "a ")) = utf8 "a" ∧
    rstripSpaces (ctypePad (utf8 "a ")) ≠ utf8 "a " := by decide

/-- Claim C3 as amended: the written content-type header is always
exactly 100 bytes; the client's space-trimmed value equals the UTF-8
encoding of the content-type with its own trailing spaces also removed
(the first 100 bytes of it when longer than 100). -/
theorem ctype_header_amended (c : List Nat) :
    (ctypePad c).length = 100 ∧
    (c.length ≤ 100 → rstripSpaces (ctypePad c) = rstripSpaces c) ∧
    (100 < c.length → rstripSpaces (ctypePad c) = rstripSpaces (c.take 100)) := by
  refine ⟨ctypePad_length c, fun h => ?_, fun h => ?_⟩
  · rw [ctypePad_of_short h, rstripSpaces_append_replicate]
  · rw [ctypePad_of_long h]

/-- Witness for amended C3 on a short and on an over-long content-type. -/
theorem ctype_header_amended_witness :
    (ctypePad (utf8 "text/html")).length = 100 ∧
    rstripSpaces (ctypePad (utf8 "text/html")) = rstripSpaces (utf8 "text/html") ∧
    rstripSpaces (ctypePad (List.replicate 101 97)) =
      rstripSpaces ((List.replicate 101 97).take 100) :=
  ⟨(ctype_header_amended (utf8 "text/html")).1,
   (ctype_header_amended (utf8 "text/html")).2.1 (by decide),
   (ctype_header_amended (List.replicate 101 97)).2.2 (by simp)⟩

/-- Claim C4 fails on the code: for a body of `10 ^ 10` bytes the
server does not fail; `f"{n:010d}"` silently produces an 11-digit
header, so the frame it emits has a length header of 11 bytes, not 10,
contradicting the fixed-width wire format. -/
theorem lengthHeader_overflow :
    (lengthHeader (10 ^ 10)).length = 11 ∧
    ∀ c : List Nat,
      ((successFrame (List.replicate (10 ^ 10) 0) c).lenHeader).length ≠ 10 := by
  have hne : (10 : Nat) ^ 10 ≠ 0 := by norm_num
  have hgt : 10 < (toDecimal (10 ^ 10)).length := by
    rw [toDecimal, if_neg hne]
    exact toDecimalAux_len_gt _ _ 10 (le_refl _) (le_refl _)
  have hle : (toDecimal (10 ^ 10)).length ≤ 11 :=
    toDecimal_len_le _ 11 (by norm_num) (by norm_num)
  have hlen : (lengthHeader (10 ^ 10)).length = 11 := by
    rw [lengthHeader, List.length_append, List.length_replicate]
    omega
  refine ⟨hlen, fun c => ?_⟩
  have hsf : (successFrame (List.replicate (10 ^ 10) 0) c).lenHeader =
      lengthHeader ((List.replicate (10 ^ 10) 0).length) := rfl
  rw [hsf, List.length_replicate, hlen]
  omega

/-- Claim C8: when the declared body length exceeds the bytes actually
delivered before the stream ends, the client exits with status 2 and a
message carrying both the declared and the actual byte counts, and
never reaches the file-writing path. -/
theorem short_read_error (n : Nat) (ct body : List Nat) (hct : ct.length = 100)
    (hb : body.length < n) (hn : n < 10 ^ 10) :
    clientMain (lengthHeader n ++ (ct ++ body)) =
      .exitError 2 (shortReadMsg (n : Int) body.length) ∧
    ∀ b c, clientMain (lengthHeader n ++ (ct ++ body)) ≠ .saved b c := by
  have hdec : fetchDecode (lengthHeader n ++ (ct ++ body)) =
      .error (shortReadMsg (n : Int) body.length) := by
    rw [fetchDecode_split _ _ _ (n : Int) (lengthHeader_length_eq _ hn) hct
      (pythonInt_lengthHeader _)]
    have ht : ((n : Int)).toNat = n := rfl
    rw [ht, List.take_of_length_le (le_of_lt hb)]
    rw [if_pos (by exact_mod_cast hb)]
  refine ⟨?_, fun b c => ?_⟩
  · rw [clientMain, hdec]
  · rw [clientMain, hdec]
    simp

/-- Witness for C8: a frame declaring 5 body bytes but delivering 3. -/
theorem short_read_error_witness :
    clientMain (lengthHeader 5 ++ (List.replicate 100 116 ++ [1, 2, 3])) =
      .exitError 2 (shortReadMsg ((5 : Nat) : Int) 3) ∧
    ∀ b c, clientMain (lengthHeader 5 ++ (List.replicate 100 116 ++ [1, 2, 3])) ≠
      .saved b c :=
  short_read_error 5 (List.replicate 100 116) [1, 2, 3] (by decide) (by decide) (by decide)

/-- The short-read message of `fetch_via_proxy` line 87 is never the
invalid-length-header message: it is at least 27 characters long while
`"Invalid length header"` has 21. -/
theorem shortReadMsg_ne_invalid (e : Int) (g : Nat) :
    shortReadMsg e g ≠ "Invalid length header" := by
  intro hEq
  have hl := congrArg String.length hEq
  rw [shortReadMsg, String.length_append, String.length_append, String.length_append,
    String.length_append] at hl
  have h1 : ("Expected " : String).length = 9 := rfl
  have h2 : (" bytes, got " : String).length = 12 := rfl
  have h3 : (" bytes" : String).length = 6 := rfl
  have h4 : ("Invalid length header" : String).length = 21 := rfl
  rw [h1, h2, h3, h4] at hl
  omega

/-- Claim C10: the client's length parse accepts every 10-byte field
that Python's `int` accepts after ASCII decoding — for any such field
(signed, space-padded, underscored, ...) the client proceeds past the
length parse without the invalid-header error — and for every negative
parsed length it returns an empty body with no error raised: the body
read takes zero bytes and the short-read comparison is vacuous. -/
theorem length_parse_lenient (lh rest : List Nat) (v : Int)
    (hlh : lh.length = 10) (hp : pythonInt lh = some v) (hrest : 100 ≤ rest.length) :
    fetchDecode (lh ++ rest) ≠ .error "Invalid length header" ∧
    (v < 0 → fetchDecode (lh ++ rest) = .ok ⟨v, rstripSpaces (rest.take 100), []⟩) := by
  have htake : (rest.take 100).length = 100 := by
    rw [List.length_take]
    omega
  have hsplit := fetchDecode_split lh (rest.take 100) (rest.drop 100) v hlh htake hp
  rw [List.take_append_drop] at hsplit
  constructor
  · rw [hsplit]
    split
    · intro hcontra
      simp only [Except.error.injEq] at hcontra
      exact shortReadMsg_ne_invalid _ _ hcontra
    · simp
  · intro hv
    have hz : v.toNat = 0 := Int.toNat_eq_zero.mpr (le_of_lt hv)
    rw [hsplit, hz, List.take_zero]
    rw [if_neg (by simp; omega)]

/-- Witness for C10 at the signed header `"-000000042"` (parsed length
`-42`) followed by a blank 100-byte content-type field. -/
theorem length_parse_lenient_witness :
    fetchDecode (utf8 "-000000042" ++ List.replicate 100 32) ≠
      .error "Invalid length header" ∧
    fetchDecode (utf8 "-000000042" ++ List.replicate 100 32) =
      .ok ⟨-42, rstripSpaces ((List.replicate 100 32).take 100), []⟩ :=
  ⟨(length_parse_lenient (utf8 "-000000042") (List.replicate 100 32) (-42)
      (by decide) (by decide) (by decide)).1,
   (length_parse_lenient (utf8 "-000000042") (List.replicate 100 32) (-42)
      (by decide) (by decide) (by decide)).2 (by decide)⟩

/-- Counterexample to claim C9 as stated: in the
name-or-service-not-known scenario the frame the server writes carries
the length header `"0000000036"`, because the message
`"URL error: Name or service not known"` is 36 bytes long, not 41;
the header `"0000000041"` claimed by the scenario is never written. -/
theorem nsnk_header_cex :
    writtenFrame (handleClient fetchNSNK [utf8 "http://example.invalid/\n"]) =
      some (errorFrame "URL error: Name or service not known") ∧
    (errorFrame "URL error: Name or service not known").lenHeader = utf8 "0000000036" ∧
    (errorFrame "URL error: Name or service not known").lenHeader ≠ utf8 "0000000041" := by
  decide

/-- Claim C9 as amended: on `"http://example.invalid/\n"` with the
fetch collaborator failing with reason `Name or service not known`,
the server dispatches the URL and writes the error frame whose body is
the 36-byte message `"URL error: Name or service not known"`, with
length header `"0000000036"` and the space-padded plain-text
content-type. -/
theorem nsnk_scenario :
    handleClient fetchNSNK [utf8 "http://example.invalid/\n"] =
      .fetchError "http://example.invalid/"
        (errorFrame "URL error: Name or service not known") ∧
    errorFrame "URL error: Name or service not known" =
      ⟨utf8 "0000000036", ctypePad (utf8 "text/plain; charset=utf-8"),
       utf8 "URL error: Name or service not known"⟩ ∧
    (utf8 "URL error: Name or service not known").length = 36 := by
  decide

/-- Claim C6: when the peer closes the connection before any newline
byte has arrived (and the 8192-byte cap was not crossed first, so the
read loop actually observes the close), the server writes no frame at
all on that connection; `handleClient` is total, so no crash occurs. -/
theorem early_close_no_frame (fetch : String → FetchResult)
    (chunks : List (List Nat)) (hnl : ∀ c ∈ chunks, (10 : Nat) ∉ c)
    (hlen : chunks.flatten.length ≤ 8192) :
    handleClient fetch chunks = .nothing := by
  have hr : readRequest chunks = none :=
    readLoop_none_of_closed chunks [] (by simp) hnl (by simpa using hlen)
  rw [handleClient, hr]

/-- Witness for C6: a peer that sends one newline-free chunk and closes. -/
theorem early_close_no_frame_witness :
    handleClient fetchNSNK [[104, 116, 116, 112]] = .nothing :=
  early_close_no_frame fetchNSNK [[104, 116, 116, 112]] (by decide) (by decide)

/-- Every outcome of processing a request buffer is an error frame
built by `send_error` or a success frame built from a fetch result. -/
theorem handleLine_shapes (fetch : String → FetchResult) (data : List Nat) :
    (∃ m, handleLine fetch data = .protoError (errorFrame m)) ∨
    (∃ u m, handleLine fetch data = .fetchError u (errorFrame m)) ∨
    (∃ u b c, handleLine fetch data = .success u (successFrame b c)) := by
  unfold handleLine
  split
  · left; exact ⟨_, rfl⟩
  · split
    · left; exact ⟨_, rfl⟩
    · split
      · right; right; exact ⟨_, _, _, rfl⟩
      · right; left; exact ⟨_, _, rfl⟩
      · right; left; exact ⟨_, _, rfl⟩
      · right; left; exact ⟨_, _, rfl⟩

/-- Once a request buffer has been read, some frame is always written. -/
theorem handleLine_ne_nothing (fetch : String → FetchResult) (data : List Nat) :
    handleLine fetch data ≠ .nothing := by
  rcases handleLine_shapes fetch data with ⟨m, h⟩ | ⟨u, m, h⟩ | ⟨u, b, c, h⟩ <;>
    rw [h] <;> simp

/-- Every outcome of `handle_client` is either nothing, an error frame
built by `send_error`, or a success frame built from a fetch result. -/
theorem handleClient_shapes (fetch : String → FetchResult) (chunks : List (List Nat)) :
    handleClient fetch chunks = .nothing ∨
    (∃ m, handleClient fetch chunks = .protoError (errorFrame m)) ∨
    (∃ u m, handleClient fetch chunks = .fetchError u (errorFrame m)) ∨
    (∃ u b c, handleClient fetch chunks = .success u (successFrame b c)) := by
  unfold handleClient
  split
  · left; rfl
  · right
    exact handleLine_shapes fetch _

/-- Claim C2: every frame the server writes, on the success and on the
error path, declares in its length header exactly the byte count of
the body that follows, and every error frame carries the space-padded
`text/plain; charset=utf-8` content-type field. -/
theorem frame_length_invariant (fetch : String → FetchResult) (chunks : List (List Nat)) :
    (∀ f, writtenFrame (handleClient fetch chunks) = some f →
      pythonInt f.lenHeader = some ((f.body.length : Nat) : Int)) ∧
    (∀ f, writtenErrorFrame (handleClient fetch chunks) = some f →
      f.ctypeHeader = ctypePad (utf8 "text/plain; charset=utf-8")) := by
  have herr : ∀ m, pythonInt (errorFrame m).lenHeader =
      some (((errorFrame m).body.length : Nat) : Int) := by
    intro m
    rw [errorFrame]
    exact pythonInt_lengthHeader _
  have hsucc : ∀ b c, pythonInt (successFrame b c).lenHeader =
      some (((successFrame b c).body.length : Nat) : Int) := by
    intro b c
    rw [successFrame]
    exact pythonInt_lengthHeader _
  rcases handleClient_shapes fetch chunks with h | ⟨m, h⟩ | ⟨u, m, h⟩ | ⟨u, b, c, h⟩ <;>
    rw [h] <;> constructor <;> intro f hf <;>
    simp only [writtenFrame, writtenErrorFrame, Option.some.injEq] at hf
  · exact absurd hf (by simp)
  · exact absurd hf (by simp)
  · rw [← hf]; exact herr m
  · rw [← hf]; rfl
  · rw [← hf]; exact herr m
  · rw [← hf]; rfl
  · rw [← hf]; exact hsucc b c
  · exact absurd hf (by simp)

/-- Witness for C2 on the frame written for an immediate bare newline. -/
theorem frame_length_invariant_witness :
    pythonInt (errorFrame "No URL received.").lenHeader =
      some (((errorFrame "No URL received.").body.length : Nat) : Int) ∧
    (errorFrame "No URL received.").ctypeHeader =
      ctypePad (utf8 "text/plain; charset=utf-8") :=
  ⟨(frame_length_invariant fetchNSNK [[10]]).1 (errorFrame "No URL received.") (by decide),
   (frame_length_invariant fetchNSNK [[10]]).2 (errorFrame "No URL received.") (by decide)⟩

/-- Claim C7: a request line that is entirely whitespace (followed by
the newline terminator) yields the well-formed `No URL received.`
error frame — plain-text content-type and a non-empty body — rather
than a dropped connection. -/
theorem blank_line_error_frame (fetch : String → FetchResult) (ws : List Nat)
    (h : ∀ b ∈ ws, isByteWs b = true) :
    handleClient fetch [ws ++ [10]] = .protoError (errorFrame "No URL received.") ∧
    (errorFrame "No URL received.").ctypeHeader =
      ctypePad (utf8 "text/plain; charset=utf-8") ∧
    (errorFrame "No URL received.").body ≠ [] := by
  refine ⟨?_, rfl, by decide⟩
  have hcne : ws ++ [10] ≠ [] := by simp
  have hread : readRequest [ws ++ [10]] = some (ws ++ [10]) := by
    rw [readRequest]
    by_cases hb : 8192 < (([] : List Nat) ++ (ws ++ [10])).length
    · rw [readLoop_break (by simp) hcne hb, List.nil_append]
    · rw [readLoop_step (by simp) hcne (Nat.not_lt.mp hb), List.nil_append]
      exact readLoop_found (by simp)
  have hline : ∀ b ∈ takeFirstLine (ws ++ [10]), isByteWs b = true := by
    intro b hb
    have hsub : b ∈ ws ++ [10] := (List.takeWhile_sublist _).subset hb
    rcases List.mem_append.mp hsub with h1 | h1
    · exact h b h1
    · rw [List.mem_singleton.mp h1]
      rfl
  have hstrip : stripBytes (takeFirstLine (ws ++ [10])) = [] := stripWith_eq_nil hline
  rw [handleClient, hread]
  show handleLine fetch (ws ++ [10]) = .protoError (errorFrame "No URL received.")
  rw [handleLine, hstrip]
  rfl

/-- Witness for C7 with a single-space request line. -/
theorem blank_line_error_frame_witness :
    handleClient fetchNSNK [[32] ++ [10]] = .protoError (errorFrame "No URL received.") ∧
    (errorFrame "No URL received.").ctypeHeader =
      ctypePad (utf8 "text/plain; charset=utf-8") ∧
    (errorFrame "No URL received.").body ≠ [] :=
  blank_line_error_frame fetchNSNK [32] (by decide)

/-- Counterexample to claim C5 as stated: a peer that sends three
4096-byte chunks of `'a'` and no newline drives the buffer past the
8192-byte cap, yet the server does not discard the request — it stops
reading and dispatches the accumulated 12288 bytes as a URL to the
fetch step, here answering with a success frame. -/
theorem cap_dispatch_cex :
    handleClient fetchEmptyOk
        [List.replicate 4096 97, List.replicate 4096 97, List.replicate 4096 97] =
      .success (String.mk (List.replicate 12288 'a')) (successFrame [] []) := by
  have hA10 : ∀ n : Nat, (10 : Nat) ∉ List.replicate n 97 := by
    intro n hmem
    rw [List.mem_replicate] at hmem
    omega
  have hAne : List.replicate 4096 (97 : Nat) ≠ [] := by
    intro hcontra
    have h2 := congrArg List.length hcontra
    rw [List.length_replicate, List.length_nil] at h2
    exact absurd h2 (by norm_num)
  have happ2 : List.replicate 4096 (97 : Nat) ++ List.replicate 4096 97 =
      List.replicate 8192 97 := by
    rw [← List.replicate_add]
  have happ3 : List.replicate 8192 (97 : Nat) ++ List.replicate 4096 97 =
      List.replicate 12288 97 := by
    rw [← List.replicate_add]
  have hread : readRequest
      [List.replicate 4096 97, List.replicate 4096 97, List.replicate 4096 97] =
      some (List.replicate 12288 97) := by
    rw [readRequest]
    rw [readLoop_step (by rw [List.mem_nil_iff]; exact not_false) hAne
      (by rw [List.nil_append, List.length_replicate]; norm_num), List.nil_append]
    rw [readLoop_step (hA10 4096) hAne
      (by simp only [List.length_append, List.length_replicate]; norm_num), happ2]
    rw [readLoop_break (hA10 8192) hAne
      (by simp only [List.length_append, List.length_replicate]; norm_num), happ3]
  have hline : takeFirstLine (List.replicate 12288 97) = List.replicate 12288 97 :=
    takeWhile_replicate_of_true (by decide) 12288
  have hstrip : stripBytes (List.replicate 12288 97) = List.replicate 12288 97 := by
    refine stripWith_eq_self (fun b hb => ?_)
    rw [List.mem_replicate] at hb
    rw [hb.2]
    rfl
  have hdec : utf8DecodeStr (List.replicate 12288 97) =
      some (String.mk (List.replicate 12288 'a')) := by
    rw [utf8DecodeStr, decodeUtf8_ascii _ (fun b hb => by
      rw [List.mem_replicate] at hb
      omega)]
    rw [List.map_replicate]
    rfl
  have hurl : String.mk (List.replicate 12288 'a') ≠ "" := by
    intro hEq
    have hdata : List.replicate 12288 'a' = ([] : List Char) := congrArg String.data hEq
    have hlen := congrArg List.length hdata
    rw [List.length_replicate, List.length_nil] at hlen
    exact absurd hlen (by norm_num)
  rw [handleClient, hread]
  show handleLine fetchEmptyOk (List.replicate 12288 97) =
    .success (String.mk (List.replicate 12288 'a')) (successFrame [] [])
  rw [handleLine, hline, hstrip, hdec]
  simp only [fetchEmptyOk, if_neg hurl]

/-- Claim C5 as amended: accumulation is bounded — with `recv` chunks
of at most 4096 bytes, any buffer the read loop hands on is at most
12288 bytes (8192-byte cap plus one overshooting chunk) — but an
over-cap buffer is not discarded: whenever the read loop returns a
buffer, the server goes on to process it as the request line and
always answers with some frame instead of aborting. -/
theorem cap_bounded_amended (fetch : String → FetchResult)
    (chunks : List (List Nat)) (hc : ∀ c ∈ chunks, c.length ≤ 4096)
    (d : List Nat) (hd : readRequest chunks = some d) :
    d.length ≤ 12288 ∧ handleClient fetch chunks ≠ .nothing := by
  refine ⟨readLoop_some_length chunks [] d hc (by simp) hd, ?_⟩
  rw [handleClient, hd]
  show handleLine fetch d ≠ .nothing
  exact handleLine_ne_nothing fetch d

/-- Witness for amended C5 on a short newline-terminated request. -/
theorem cap_bounded_amended_witness :
    ([104, 10] : List Nat).length ≤ 12288 ∧
    handleClient fetchNSNK [[104, 10]] ≠ .nothing :=
  cap_bounded_amended fetchNSNK [[104, 10]] (by decide) [104, 10] (by decide)

end Proxy
